import Mathlib

/-!
Shallow embedding of the `ai-agents-from-scratch` example scripts.

Each Python source file is translated into a namespace of executable Lean
definitions:

* `MemoryManager` embeds `simple-agent-with-memory/memory_manager.py`.
* `MemoryAgent` embeds `simple-agent-with-memory/simple-agent-with-memory.py`.
* `ReactAgent` embeds `react-agent/react-agent.py`.
* `Batch` embeds `batch/batch.py`.
* `Debugger` embeds `helper/prompt_debugger.py`.

Modelling conventions:

* The LLM (`llama.create_chat_completion`) is an external effect; it is
  modelled as an explicit oracle parameter mapping the current message list
  to the model's reply.  In `batch.py` the single `Llama` instance is
  shared by two concurrently scheduled requests, so there the oracle also
  threads the instance's mutable state.
* The file system is explicit state.  For the memory store the third-party
  `json` module is modelled at the level of JSON values: `json.dump` stores
  the value and `json.load` recovers exactly that value (the `json` module
  round-trips every value in the JSON image), while a missing file
  (`FileNotFoundError`) and undecodable contents (`json.JSONDecodeError`)
  are separate constructors of `FileState`.
* A Python call that can raise an uncaught exception is embedded as a
  function returning `Option`, with `none` for the raising executions.
* `datetime.now()` is passed in as an explicit `now : String` parameter.
* Python floats in the calculator tools are modelled as rationals `ℚ` with
  `toString` standing for `str`.
-/

/-- `startsWithList pat l` is true when `l` begins with `pat`
(character-list version of a string prefix test). -/
def startsWithList : List Char → List Char → Bool
  | [], _ => true
  | _ :: _, [] => false
  | a :: as, b :: bs => (a == b) && startsWithList as bs

/-- `containsSeq pat l` is true when `pat` occurs contiguously inside `l`. -/
def containsSeq (pat : List Char) : List Char → Bool
  | [] => pat.isEmpty
  | c :: rest => startsWithList pat (c :: rest) || containsSeq pat rest

/-- Python's `needle in hay` substring test. -/
def pyIn (needle hay : String) : Bool :=
  containsSeq needle.toList hay.toList

/-- Python's `str.lower()`. -/
def pyLower (s : String) : String :=
  String.mk (s.toList.map Char.toLower)

/-- Python's `str.upper()`. -/
def pyUpper (s : String) : String :=
  String.mk (s.toList.map Char.toUpper)

/-- Accumulating worker for `pySplit`: `acc` holds the current word
reversed. -/
def pySplitAux : List Char → List Char → List String
  | [], acc => if acc.isEmpty then [] else [String.mk acc.reverse]
  | c :: rest, acc =>
    if c.isWhitespace then
      if acc.isEmpty then pySplitAux rest []
      else String.mk acc.reverse :: pySplitAux rest []
    else pySplitAux rest (c :: acc)

/-- Python's no-argument `str.split()`: split on whitespace runs and drop
empty pieces. -/
def pySplit (s : String) : List String :=
  pySplitAux s.toList []

/-- Python's single-character `str.replace(old, new)`. -/
def replaceChar (old new : Char) (s : String) : String :=
  String.mk (s.toList.map (fun c => if c = old then new else c))

/-- JSON values, the data written to and read from the memory file. -/
inductive Json where
  | null : Json
  | bool (b : Bool) : Json
  | num (n : Int) : Json
  | str (s : String) : Json
  | arr (elems : List Json) : Json
  | obj (entries : List (String × Json)) : Json

/-- Key lookup in a JSON object's (ordered) entry list. -/
def lookupKey : List (String × Json) → String → Option Json
  | [], _ => none
  | (k, v) :: rest, key => if k = key then some v else lookupKey rest key

/-- Python dict assignment `d[key] = value` on an ordered entry list:
an existing key keeps its position, a new key is appended at the end. -/
def setEntry : List (String × Json) → String → Json → List (String × Json)
  | [], key, value => [(key, value)]
  | (k, v) :: rest, key, value =>
    if k = key then (k, value) :: rest else (k, v) :: setEntry rest key value

/-- Python subscript read `j[key]`; `none` models the `KeyError` /
`TypeError` raised when `j` is not a dict with that key. -/
def Json.getKey : Json → String → Option Json
  | Json.obj entries, key => lookupKey entries key
  | _, _ => none

/-- Python subscript assignment `j[key] = value` on a dict value
(identity on non-objects, where the embedding never uses it). -/
def Json.setKey : Json → String → Json → Json
  | Json.obj entries, key, value => Json.obj (setEntry entries key value)
  | j, _, _ => j

/-- The state of the single memory file on disk. -/
inductive FileState where
  | missing : FileState
  | invalid (raw : String) : FileState
  | stored (value : Json) : FileState

namespace MemoryManager

/-- The dictionary returned by `load_memories` when the file is missing or
undecodable. -/
def emptyMemories : Json :=
  Json.obj
    [("facts", Json.arr []),
     ("preferences", Json.obj []),
     ("conversations", Json.arr [])]

/-- `MemoryManager.load_memories`: read and decode the JSON file, falling
back to the empty memory on `FileNotFoundError` or `json.JSONDecodeError`. -/
def load_memories : FileState → Json
  | FileState.stored value => value
  | FileState.missing => emptyMemories
  | FileState.invalid _ => emptyMemories

/-- `MemoryManager.save_memories`: `json.dump` the given dictionary,
replacing whatever the file held before. -/
def save_memories (memories : Json) (_fs : FileState) : FileState :=
  FileState.stored memories

/-- The record appended by `add_fact`:
`{'content': fact, 'timestamp': datetime.now().isoformat()}`. -/
def factRecord (fact : Json) (now : String) : Json :=
  Json.obj [("content", fact), ("timestamp", Json.str now)]

/-- `MemoryManager.add_fact`: load, append a fact record to
`memories['facts']`, save.  `none` models the uncaught exception raised
when the loaded value has no `'facts'` list to append to.  The `fact`
argument is a `Json` value because Python does not enforce the `str`
annotation (the agent can pass `None`). -/
def add_fact (now : String) (fact : Json) (fs : FileState) : Option FileState :=
  let memories := load_memories fs
  match memories.getKey "facts" with
  | some (Json.arr facts) =>
    some (save_memories (memories.setKey "facts"
      (Json.arr (facts ++ [factRecord fact now]))) fs)
  | _ => none

/-- `MemoryManager.add_preference`: load, assign
`memories['preferences'][key] = value`, save.  `none` models the uncaught
exception raised when the loaded value has no `'preferences'` dict. -/
def add_preference (key : String) (value : Json) (fs : FileState) :
    Option FileState :=
  let memories := load_memories fs
  match memories.getKey "preferences" with
  | some (Json.obj prefs) =>
    some (save_memories (memories.setKey "preferences"
      (Json.obj (setEntry prefs key value))) fs)
  | _ => none

end MemoryManager

/-- A chat message dictionary as built by the scripts: role, optional
content, tool calls (generic in the shape `τ` of a tool call), and the
`tool_call_id` of tool-result messages. -/
structure ChatMsg (τ : Type) where
  role : String
  content : Option String := none
  toolCalls : List τ := []
  toolCallId : Option String := none

namespace ReactAgent

/-- The ReAct system prompt of `react-agent.py`. -/
def system_prompt : String :=
  "You are a mathematical assistant that uses the ReAct (Reasoning + Acting) approach.\n\nCRITICAL: You must follow this EXACT pattern for every problem:\n\nThought: [Explain what calculation you need to do next and why]\nAction: [Call ONE tool with specific numbers]\nObservation: [Wait for the tool result]\nThought: [Analyze the result and decide next step]\nAction: [Call another tool if needed]\nObservation: [Wait for the tool result]\n... (repeat as many times as needed)\nThought: [Once you have ALL the information needed to answer the question]\nAnswer: [Give the final answer and STOP]\n\nRULES:\n1. Only write \"Answer:\" when you have the complete final answer to the user's question\n2. After writing \"Answer:\", DO NOT continue calculating or thinking\n3. Break complex problems into the smallest possible steps\n4. Use tools for ALL calculations - never calculate in your head\n5. Each Action should call exactly ONE tool\n\nEXAMPLE:\nUser: \"What is 5 + 3, then multiply that by 2?\"\n\nThought: First I need to add 5 and 3\nAction: add(5, 3)\nObservation: 8\nThought: Now I need to multiply that result by 2\nAction: multiply(8, 2)\nObservation: 16\nThought: I now have the final result\nAnswer: 16"

/-- Calculator tool `add` (console printing elided). -/
def add (a b : ℚ) : String :=
  toString (a + b)

/-- Calculator tool `multiply` (console printing elided). -/
def multiply (a b : ℚ) : String :=
  toString (a * b)

/-- Calculator tool `subtract` (console printing elided). -/
def subtract (a b : ℚ) : String :=
  toString (a - b)

/-- Calculator tool `divide`: guarded against a zero divisor, in which case
the division is never performed and a fixed error string is returned. -/
def divide (a b : ℚ) : String :=
  if b = 0 then "Error: Cannot divide by zero"
  else toString (a / b)

/-- The argument dictionary of a calculator tool call after `json.loads`:
the `"a"` / `"b"` keys may be absent (the model is not forced to honour
the tool schema), in which case `arguments["a"]` / `arguments["b"]`
raises `KeyError`. -/
structure CalcArgs where
  a : Option ℚ := none
  b : Option ℚ := none

/-- A calculator tool call as produced by the model: id, function name,
and the result of decoding its argument string.  `arguments = none`
models an argument string that `json.loads` fails to decode (an uncaught
exception); an empty argument string is `some {}` (the code substitutes
`{}`). -/
structure CalcToolCall where
  id : String
  functionName : String
  arguments : Option CalcArgs := none

/-- `execute_function_call` of `react-agent.py`: for a known function name
it reads `arguments["a"]` and `arguments["b"]` — `none` models the
`KeyError` when either is missing — and dispatches; an unknown name
returns an error string without touching the arguments. -/
def execute_function_call (functionName : String) (arguments : CalcArgs) :
    Option String :=
  if functionName = "add" ∨ functionName = "multiply" ∨
      functionName = "subtract" ∨ functionName = "divide" then
    match arguments.a, arguments.b with
    | some a, some b =>
      some (if functionName = "add" then add a b
        else if functionName = "multiply" then multiply a b
        else if functionName = "subtract" then subtract a b
        else divide a b)
    | _, _ => none
  else
    some ("Error: Unknown function " ++ functionName)

/-- The termination test of the ReAct loop:
`"answer:" in current_chunk.lower()`. -/
def containsAnswer (currentChunk : String) : Bool :=
  pyIn "answer:" (pyLower currentChunk)

/-- The initial message list of `react_agent`: system prompt plus user
question. -/
def initMessages (userPrompt : String) : List (ChatMsg CalcToolCall) :=
  [{ role := "system", content := some system_prompt },
   { role := "user", content := some userPrompt }]

/-- The `for tool_call in check_message["tool_calls"]` block: execute each
call in order, producing one tool message per call; `none` models the
uncaught exception when an argument string fails to decode or a required
argument is missing. -/
def execCalcToolCalls : List CalcToolCall → Option (List (ChatMsg CalcToolCall))
  | [] => some []
  | tc :: rest =>
    match tc.arguments with
    | none => none
    | some args =>
      match execute_function_call tc.functionName args with
      | none => none
      | some functionResponse =>
        match execCalcToolCalls rest with
        | none => none
        | some restMsgs =>
          some ({ role := "tool", toolCallId := some tc.id,
                  content := some functionResponse } :: restMsgs)

/-- One non-terminating iteration's effect on the message list: append the
streamed assistant message; then, if the tool-check reply carries tool
calls, replace that last message by the check message and append one tool
message per call — `none` when that block raises — otherwise append the
fixed continuation user prompt. -/
def reactNext (model : List (ChatMsg CalcToolCall) → String)
    (toolCheck : List (ChatMsg CalcToolCall) → ChatMsg CalcToolCall)
    (messages : List (ChatMsg CalcToolCall)) : Option (List (ChatMsg CalcToolCall)) :=
  let currentChunk := model messages
  let messages1 := messages ++ [{ role := "assistant", content := some currentChunk }]
  let checkMessage := toolCheck messages1
  if checkMessage.toolCalls.isEmpty then
    some (messages1 ++
      [{ role := "user", content := some "Continue your reasoning. What's the next step?" }])
  else
    match execCalcToolCalls checkMessage.toolCalls with
    | none => none
    | some toolMessages => some (messages1.dropLast ++ [checkMessage] ++ toolMessages)

/-- The `while iteration < max_iterations` loop of `react_agent`, by fuel.
Returns the final `full_response`, the number of iterations executed, and
whether the `"answer:"` termination check fired; `none` models an
exception escaping from the tool-execution block. -/
def reactLoop (model : List (ChatMsg CalcToolCall) → String)
    (toolCheck : List (ChatMsg CalcToolCall) → ChatMsg CalcToolCall) :
    Nat → List (ChatMsg CalcToolCall) → String → Option (String × Nat × Bool)
  | 0, _, fullResponse => some (fullResponse, 0, false)
  | fuel + 1, messages, fullResponse =>
    let currentChunk := model messages
    let fullResponse1 := fullResponse ++ currentChunk
    if containsAnswer currentChunk then
      some (fullResponse1, 1, true)
    else
      match reactNext model toolCheck messages with
      | none => none
      | some messages1 =>
        match reactLoop model toolCheck fuel messages1 fullResponse1 with
        | none => none
        | some rest => some (rest.1, rest.2.1 + 1, rest.2.2)

/-- `react_agent`: run the loop from the initial messages; on early return
hand back the accumulated response, otherwise
`return full_response or "Could not complete reasoning within iteration limit."`;
`none` models the uncaught exception of a raising tool-execution block. -/
def react_agent (model : List (ChatMsg CalcToolCall) → String)
    (toolCheck : List (ChatMsg CalcToolCall) → ChatMsg CalcToolCall)
    (userPrompt : String) (maxIterations : Nat) : Option String :=
  match reactLoop model toolCheck maxIterations (initMessages userPrompt) "" with
  | none => none
  | some (fullResponse, _, true) => some fullResponse
  | some (fullResponse, _, false) =>
    some (if fullResponse = "" then "Could not complete reasoning within iteration limit."
      else fullResponse)

/-- The message list after `n` non-terminating iterations (`none` once an
iteration has raised). -/
def msgsAfter (model : List (ChatMsg CalcToolCall) → String)
    (toolCheck : List (ChatMsg CalcToolCall) → ChatMsg CalcToolCall)
    (messages : List (ChatMsg CalcToolCall)) : Nat → Option (List (ChatMsg CalcToolCall))
  | 0 => some messages
  | n + 1 => (msgsAfter model toolCheck messages n).bind (reactNext model toolCheck)

/-- The `full_response` accumulated over the first `n` iterations (`none`
once an iteration has raised). -/
def accumAfter (model : List (ChatMsg CalcToolCall) → String)
    (toolCheck : List (ChatMsg CalcToolCall) → ChatMsg CalcToolCall)
    (messages : List (ChatMsg CalcToolCall)) : Nat → Option String
  | 0 => some ""
  | n + 1 =>
    match msgsAfter model toolCheck messages n, accumAfter model toolCheck messages n with
    | some m, some s => some (s ++ model m)
    | _, _ => none

end ReactAgent

namespace MemoryAgent

/-- The parsed argument dictionary of a `save_memory` tool call; `none`
fields model absent keys (`arguments.get(...)` returning `None`). -/
structure SaveArgs where
  saveType : Option String := none
  content : Option String := none
  key : Option String := none

/-- A tool call as produced by the model.  `arguments = none` models an
argument string that `json.loads` fails to decode (an uncaught exception);
an empty argument string is `some {}` (the code substitutes `{}`). -/
structure SaveToolCall where
  id : String
  functionName : String
  arguments : Option SaveArgs := none

/-- A `none` content is stored by the memory manager as JSON `null`,
a present string as a JSON string. -/
def optJson : Option String → Json
  | some s => Json.str s
  | none => Json.null

/-- The preference key actually used:
`key = key or content.split()[0]`.  `none` models the uncaught exception
(`AttributeError` on `None.split()` or `IndexError` on an empty split)
when `key` is falsy and `content` yields no word. -/
def prefKey (key content : Option String) : Option String :=
  match key with
  | some k => if k = "" then (content.map pySplit).bind List.head? else some k
  | none => (content.map pySplit).bind List.head?

/-- `save_memory` of `simple-agent-with-memory.py`: dispatch on
`memory_type`, writing through the `MemoryManager`.  Returns the reply
string and the new file state, or `none` when an exception escapes. -/
def save_memory (now : String) (saveType content key : Option String)
    (mem : FileState) : Option (String × FileState) :=
  if saveType = some "fact" then
    match MemoryManager.add_fact now (optJson content) mem with
    | some mem' => some ("Fact saved to memory", mem')
    | none => none
  else if saveType = some "preference" then
    match prefKey key content with
    | some k =>
      match MemoryManager.add_preference k (optJson content) mem with
      | some mem' => some ("Preference saved to memory", mem')
      | none => none
    | none => none
  else some ("Unknown memory type", mem)

/-- `execute_function_call` of `simple-agent-with-memory.py`. -/
def execute_function_call (now : String) (functionName : String)
    (args : SaveArgs) (mem : FileState) : Option (String × FileState) :=
  if functionName = "save_memory" then
    save_memory now args.saveType args.content args.key mem
  else some ("Error: Unknown function " ++ functionName, mem)

/-- The `for tool_call in message["tool_calls"]` loop of `chat`: execute
each call in order, appending one tool message per call and threading the
memory file state. -/
def execToolCalls (now : String) :
    List SaveToolCall → List (ChatMsg SaveToolCall) → FileState →
    Option (List (ChatMsg SaveToolCall) × FileState)
  | [], messages, mem => some (messages, mem)
  | tc :: rest, messages, mem =>
    match tc.arguments with
    | none => none
    | some args =>
      match execute_function_call now tc.functionName args mem with
      | none => none
      | some (functionResponse, mem') =>
        execToolCalls now rest
          (messages ++
            [{ role := "tool", toolCallId := some tc.id,
               content := some functionResponse }]) mem'

/-- `chat` of `simple-agent-with-memory.py`: append the user message, ask
the model; if the reply carries tool calls, append it, run the calls, ask
again and append the final assistant answer; otherwise append the reply's
content (defaulting to `""`).  Returns the answer, the grown message list
and the new memory file state; `none` models an escaping exception. -/
def chat (model : List (ChatMsg SaveToolCall) → ChatMsg SaveToolCall)
    (now : String) (userMessage : String)
    (messages : List (ChatMsg SaveToolCall)) (mem : FileState) :
    Option (Option String × List (ChatMsg SaveToolCall) × FileState) :=
  let messages1 := messages ++ [{ role := "user", content := some userMessage }]
  let message := model messages1
  if message.toolCalls.isEmpty then
    let answer := some (message.content.getD "")
    some (answer, messages1 ++ [{ role := "assistant", content := answer }], mem)
  else
    match execToolCalls now message.toolCalls (messages1 ++ [message]) mem with
    | none => none
    | some (messages2, mem') =>
      let answer := (model messages2).content
      some (answer, messages2 ++ [{ role := "assistant", content := answer }], mem')

end MemoryAgent

namespace Batch

/-- `process_prompt` of `batch.py`: one `create_chat_completion` call on
the shared `Llama` instance.  The instance's mutable state (context
buffers, caches) is abstracted as a type `σ`; `llama` maps the current
state and the prompt to the reply content and the successor state.
Returns `(label, prompt, answer)` together with the state the call leaves
behind. -/
def process_prompt {σ : Type} (llama : σ → String → String × σ) (st : σ)
    (prompt label : String) : (String × String × String) × σ :=
  ((label, prompt, (llama st prompt).1), (llama st prompt).2)

/-- The first hard-coded question of `main()`. -/
def q1 : String :=
  "Hi there, how are you?"

/-- The second hard-coded question of `main()`. -/
def q2 : String :=
  "How much is 6+6?"

/-- Insertion into a completion list ordered by argument index. -/
def insertByIndex {α : Type} (p : Nat × α) : List (Nat × α) → List (Nat × α)
  | [] => [p]
  | q :: rest => if p.1 ≤ q.1 then p :: q :: rest else q :: insertByIndex p rest

/-- Sort a completion list by argument index. -/
def sortByIndex {α : Type} : List (Nat × α) → List (Nat × α)
  | [] => []
  | p :: rest => insertByIndex p (sortByIndex rest)

/-- `asyncio.gather` on two awaitables: the tasks complete in an arbitrary
order (`q1First` says which finished first), but gather places each result
at its argument position. -/
def gatherTwo {α : Type} (r1 r2 : α) (q1First : Bool) : List α :=
  let completions := if q1First then [(0, r1), (1, r2)] else [(1, r2), (0, r1)]
  (sortByIndex completions).map Prod.snd

/-- The result list collected by `main()`:
`await asyncio.gather(process_prompt(llama, q1, "Q1"), process_prompt(llama, q2, "Q2"))`.
Both calls receive the single shared `llama` instance; the executor runs
the two blocking calls in some order (`q1First` says which ran first) and
each call sees the state the other left behind; gather then places each
result at its argument position.  (Truly overlapping C-level execution on
the non-thread-safe instance has no sequential semantics and is outside
the model.) -/
def mainResults {σ : Type} (llama : σ → String → String × σ) (st : σ)
    (q1First : Bool) : List (String × String × String) × σ :=
  if q1First then
    let r1 := process_prompt llama st q1 "Q1"
    let r2 := process_prompt llama r1.2 q2 "Q2"
    (gatherTwo r1.1 r2.1 true, r2.2)
  else
    let r2 := process_prompt llama st q2 "Q2"
    let r1 := process_prompt llama r2.2 q1 "Q1"
    (gatherTwo r1.1 r2.1 false, r1.2)

/-- Processing the same two prompts one after the other on the same
instance: q1's call first, then q2's on the state it left. -/
def sequentialResults {σ : Type} (llama : σ → String → String × σ) (st : σ) :
    List (String × String × String) × σ :=
  let r1 := process_prompt llama st q1 "Q1"
  let r2 := process_prompt llama r1.2 q2 "Q2"
  ([r1.1, r2.1], r2.2)

/-- The `for label, prompt, answer in results` print loop of `main()` as
the string it writes to stdout. -/
def printedOutput (results : List (String × String × String)) : String :=
  results.foldl
    (fun acc r => acc ++ "User: " ++ r.2.1 ++ "\n" ++ "AI: " ++ r.2.2 ++ "\n\n") ""

end Batch

/-- JSON string escaping for one character (the escapes Python's `json`
emits for quotes, backslashes and common control characters). -/
def escapeChar (c : Char) : String :=
  if c = '"' then "\\\""
  else if c = '\\' then "\\\\"
  else if c = '\n' then "\\n"
  else if c = '\t' then "\\t"
  else if c = '\r' then "\\r"
  else String.singleton c

/-- JSON string escaping. -/
def escapeString (s : String) : String :=
  String.join (s.toList.map escapeChar)

mutual

/-- Model of the third-party `json.dumps` serializer (the whitespace layout
of `indent=2` is elided; the claims never inspect this string's shape). -/
def Json.dumps : Json → String
  | Json.null => "null"
  | Json.bool true => "true"
  | Json.bool false => "false"
  | Json.num n => toString n
  | Json.str s => "\"" ++ escapeString s ++ "\""
  | Json.arr elems => "[" ++ Json.dumpsElems elems ++ "]"
  | Json.obj entries => "\x7b" ++ Json.dumpsEntries entries ++ "\x7d"

/-- Comma-separated serialization of array elements. -/
def Json.dumpsElems : List Json → String
  | [] => ""
  | [x] => Json.dumps x
  | x :: y :: rest => Json.dumps x ++ ", " ++ Json.dumpsElems (y :: rest)

/-- Comma-separated serialization of object entries. -/
def Json.dumpsEntries : List (String × Json) → String
  | [] => ""
  | [(k, v)] => "\"" ++ escapeString k ++ "\": " ++ Json.dumps v
  | (k, v) :: e :: rest =>
    "\"" ++ escapeString k ++ "\": " ++ Json.dumps v ++ ", " ++ Json.dumpsEntries (e :: rest)

end

namespace Debugger

/-- `OutputType` of `prompt_debugger.py`. -/
inductive OutputType where
  | exactPrompt : OutputType
  | contextState : OutputType
  | structured : OutputType
deriving DecidableEq

/-- A message dictionary as `_format_messages` reads it: `role` and
`content` keys may both be absent. -/
structure PMsg where
  role : Option String := none
  content : Option String := none

/-- The `PromptDebugger` constructor options with their defaults. -/
structure DebuggerOptions where
  outputDir : String := "./"
  filename : String := "debug_output.txt"
  includeTimestamp : Bool := false
  appendMode : Bool := false
  outputTypes : List OutputType := [OutputType.exactPrompt]

/-- The `params` dictionary passed to `debug`: messages, function
definitions and an optional model response. -/
structure DebugParams where
  messages : List PMsg := []
  functions : List Json := []
  response : Option String := none

/-- The captured-data dictionary built by the `capture_*` methods.
An absent `functions` key and an empty list are not distinguished:
`format_output` treats them identically. -/
structure CapturedData where
  timestamp : String
  exactPrompt : Option String := none
  messages : List PMsg := []
  functions : List Json := []
  response : Option String := none

/-- `PromptDebugger._format_messages`. -/
def format_messages (messages : List PMsg) : String :=
  messages.foldl
    (fun acc msg =>
      acc ++ "\n=== " ++ pyUpper (msg.role.getD "unknown") ++ " ===\n" ++
        msg.content.getD "" ++ "\n") ""

/-- `PromptDebugger.capture_exact_prompt`. -/
def capture_exact_prompt (now : String) (params : DebugParams) : CapturedData :=
  let formattedPrompt := format_messages params.messages
  let formattedPrompt :=
    if params.functions.isEmpty then formattedPrompt
    else formattedPrompt ++ "\n\n=== Available Functions ===\n" ++
      Json.dumps (Json.arr params.functions)
  { timestamp := now, exactPrompt := some formattedPrompt,
    messages := params.messages, functions := params.functions }

/-- `PromptDebugger.capture_all`: start from a timestamp, merge in the
exact-prompt capture when configured, then merge in the response capture
when a response was passed. -/
def capture_all (o : DebuggerOptions) (now : String) (params : DebugParams) :
    CapturedData :=
  let result : CapturedData := { timestamp := now }
  let result :=
    if OutputType.exactPrompt ∈ o.outputTypes then
      let exactData := capture_exact_prompt now params
      { result with
        exactPrompt := exactData.exactPrompt,
        timestamp := exactData.timestamp,
        messages := exactData.messages,
        functions := exactData.functions }
    else result
  match params.response with
  | some r => { result with response := some r, timestamp := now }
  | none => result

/-- `PromptDebugger.format_output`. -/
def format_output (c : CapturedData) : String :=
  let output := "\n========== PROMPT DEBUG OUTPUT ==========\n" ++
    "Timestamp: " ++ c.timestamp ++ "\n"
  let output :=
    match c.exactPrompt with
    | some p => output ++ "\n=== EXACT PROMPT ===\n" ++ p ++ "\n"
    | none => output
  let output :=
    match c.response with
    | some r => output ++ "\n=== MODEL RESPONSE ===\n" ++ r ++ "\n"
    | none => output
  let output :=
    if c.functions.isEmpty then output
    else output ++ "\nFunctions: " ++ toString c.functions.length ++ " available\n"
  output ++ "==========================================\n"

/-- The last path component, as `pathlib` takes `name`. -/
def lastComponent (s : String) : String :=
  String.mk ((s.toList.reverse.takeWhile (fun c => c != '/')).reverse)

/-- Index of the last `.` in a character list, if any. -/
def lastDotIdx (cs : List Char) : Option Nat :=
  match cs.reverse.findIdx? (fun c => c == '.') with
  | some j => some (cs.length - 1 - j)
  | none => none

/-- `pathlib.Path(filename).suffix`: the final extension including its dot,
empty when the name has no dot strictly inside it. -/
def pathSuffix (filename : String) : String :=
  let name := lastComponent filename
  let cs := name.toList
  match lastDotIdx cs with
  | some i => if 0 < i ∧ i < cs.length - 1 then String.mk (cs.drop i) else ""
  | none => ""

/-- `pathlib.Path(filename).stem`: the name with `pathSuffix` removed. -/
def pathStem (filename : String) : String :=
  let name := lastComponent filename
  let cs := name.toList
  match lastDotIdx cs with
  | some i => if 0 < i ∧ i < cs.length - 1 then String.mk (cs.take i) else name
  | none => name

/-- `datetime.now().isoformat().replace(':', '-').replace('.', '-')`. -/
def sanitizeStamp (now : String) : String :=
  replaceChar '.' '-' (replaceChar ':' '-' now)

/-- Python's `custom_filename or self.filename`. -/
def pyOrStr (custom : Option String) (fallbackName : String) : String :=
  match custom with
  | some f => if f = "" then fallbackName else f
  | none => fallbackName

/-- `PromptDebugger.save_to_file`: format the captured data, build the
output filename (optionally timestamped before the extension), join it to
the output directory, and write — appending in `append_mode`, overwriting
otherwise.  The file system is a map from path to contents; the result is
the written path and the updated file system. -/
def save_to_file (o : DebuggerOptions) (now : String)
    (capturedData : CapturedData) (customFilename : Option String)
    (fs : String → Option String) : String × (String → Option String) :=
  let content := format_output capturedData
  let filename := pyOrStr customFilename o.filename
  let filename :=
    if o.includeTimestamp then
      pathStem filename ++ "_" ++ sanitizeStamp now ++ pathSuffix filename
    else filename
  let filepath := o.outputDir ++ "/" ++ filename
  let newContent := if o.appendMode then (fs filepath).getD "" ++ content else content
  (filepath, fun p => if p = filepath then some newContent else fs p)

/-- The dictionary returned by `PromptDebugger.debug`:
`{'capturedData': ..., 'filepath': ...}`. -/
structure DebugResult where
  capturedData : CapturedData
  filepath : String

/-- `PromptDebugger.debug`: capture all configured outputs, save them to
file, and return the captured data together with the written path. -/
def debug (o : DebuggerOptions) (now : String) (params : DebugParams)
    (customFilename : Option String) (fs : String → Option String) :
    DebugResult × (String → Option String) :=
  let capturedData := capture_all o now params
  let r := save_to_file o now capturedData customFilename fs
  ({ capturedData := capturedData, filepath := r.1 }, r.2)

end Debugger

/-!
Helper lemmas shared by the claim theorems.
-/

/-- Looking up the key just assigned finds the new value. -/
theorem lookupKey_setEntry_self (entries : List (String × Json)) (key : String)
    (value : Json) :
    lookupKey (setEntry entries key value) key = some value := by
  induction entries with
  | nil => simp [setEntry, lookupKey]
  | cons e rest ih =>
    obtain ⟨k, v⟩ := e
    by_cases h : k = key
    · simp [setEntry, h, lookupKey]
    · simp [setEntry, h, lookupKey, ih]

/-- Assigning one key leaves lookups of every other key unchanged. -/
theorem lookupKey_setEntry_ne (entries : List (String × Json)) (key k' : String)
    (value : Json) (h : k' ≠ key) :
    lookupKey (setEntry entries key value) k' = lookupKey entries k' := by
  induction entries with
  | nil =>
    simp only [setEntry, lookupKey]
    rw [if_neg (fun hh => h hh.symm)]
  | cons e rest ih =>
    obtain ⟨k, v⟩ := e
    by_cases hk : k = key
    · subst hk
      simp only [setEntry, if_pos rfl, lookupKey]
      rw [if_neg (fun hh => h hh.symm), if_neg (fun hh => h hh.symm)]
    · simp only [setEntry, if_neg hk, lookupKey, ih]

/-- A value with a successful key lookup is an object. -/
theorem getKey_some_obj {m : Json} {k : String} {v : Json}
    (h : m.getKey k = some v) : ∃ entries, m = Json.obj entries := by
  cases m <;> simp_all [Json.getKey]

/-- Setting one key of an object leaves every other key's lookup
unchanged. -/
theorem getKey_setKey_ne {m : Json} {k : String} (v : Json) (k' : String)
    (hobj : ∃ entries, m = Json.obj entries) (hne : k' ≠ k) :
    (m.setKey k v).getKey k' = m.getKey k' := by
  obtain ⟨entries, rfl⟩ := hobj
  simp only [Json.setKey, Json.getKey]
  exact lookupKey_setEntry_ne entries k k' v hne

/-- Setting a key of an object makes that key's lookup the new value. -/
theorem getKey_setKey_self {m : Json} {k : String} (v : Json)
    (hobj : ∃ entries, m = Json.obj entries) :
    (m.setKey k v).getKey k = some v := by
  obtain ⟨entries, rfl⟩ := hobj
  simp only [Json.setKey, Json.getKey]
  exact lookupKey_setEntry_self entries k v

/-!
Claim theorems.
-/

/-- C10: the `divide` calculator tool is total and guarded: with a zero
divisor it returns the fixed error string and the division is never
performed; with a non-zero divisor it returns `str(a / b)`. -/
theorem divide_total_and_guarded :
    (∀ a : ℚ, ReactAgent.divide a 0 = "Error: Cannot divide by zero") ∧
    (∀ (a b : ℚ), b ≠ 0 → ReactAgent.divide a b = toString (a / b)) := by
  constructor
  · intro a
    simp [ReactAgent.divide]
  · intro a b h
    simp [ReactAgent.divide, h]

/-- Witness for C10 at `a = 3`, `b = 2`. -/
theorem divide_total_and_guarded_witness :
    (2 : ℚ) ≠ 0 ∧ ReactAgent.divide 3 2 = toString ((3 : ℚ) / 2) :=
  ⟨by norm_num, divide_total_and_guarded.2 3 2 (by norm_num)⟩

/-- C6: saving a memories dictionary and loading it back returns the same
dictionary (the `json` module round-trips every value in the JSON image,
and `save_memories` / `load_memories` add no transformation of their
own). -/
theorem save_load_roundtrip (m : Json) (fs : FileState) :
    MemoryManager.load_memories (MemoryManager.save_memories m fs) = m :=
  rfl

/-- C5: `load_memories` never raises on a missing or corrupt store: both
error cases return the empty memory dictionary, and `add_fact` /
`add_preference` on a missing or corrupt file behave exactly as on a file
holding the empty memory. -/
theorem load_memories_error_fallback (raw now key : String) (fact value : Json) :
    MemoryManager.load_memories FileState.missing = MemoryManager.emptyMemories ∧
    MemoryManager.load_memories (FileState.invalid raw) = MemoryManager.emptyMemories ∧
    MemoryManager.add_fact now fact FileState.missing =
      MemoryManager.add_fact now fact (FileState.stored MemoryManager.emptyMemories) ∧
    MemoryManager.add_fact now fact (FileState.invalid raw) =
      MemoryManager.add_fact now fact (FileState.stored MemoryManager.emptyMemories) ∧
    MemoryManager.add_preference key value FileState.missing =
      MemoryManager.add_preference key value (FileState.stored MemoryManager.emptyMemories) ∧
    MemoryManager.add_preference key value (FileState.invalid raw) =
      MemoryManager.add_preference key value (FileState.stored MemoryManager.emptyMemories) :=
  ⟨rfl, rfl, rfl, rfl, rfl, rfl⟩

/-- C3: both mutating operations are a flat read-modify-write of the file:
`add_fact` stores `load_memories()` with exactly one
`{content, timestamp}` record appended to the end of its `'facts'` list,
and `add_preference` stores `load_memories()` with its `'preferences'`
dict mapping the given key to the given value. -/
theorem memory_mutations_read_modify_write (now fact key value : String)
    (fs : FileState) (facts : List Json) (prefs : List (String × Json))
    (hf : (MemoryManager.load_memories fs).getKey "facts" = some (Json.arr facts))
    (hp : (MemoryManager.load_memories fs).getKey "preferences" = some (Json.obj prefs)) :
    MemoryManager.add_fact now (Json.str fact) fs =
      some (MemoryManager.save_memories
        ((MemoryManager.load_memories fs).setKey "facts"
          (Json.arr (facts ++ [MemoryManager.factRecord (Json.str fact) now]))) fs) ∧
    MemoryManager.add_preference key (Json.str value) fs =
      some (MemoryManager.save_memories
        ((MemoryManager.load_memories fs).setKey "preferences"
          (Json.obj (setEntry prefs key (Json.str value)))) fs) ∧
    lookupKey (setEntry prefs key (Json.str value)) key = some (Json.str value) := by
  refine ⟨?_, ?_, ?_⟩
  · simp [MemoryManager.add_fact, hf]
  · simp [MemoryManager.add_preference, hp]
  · exact lookupKey_setEntry_self prefs key (Json.str value)

/-- Witness for C3 on a file holding the empty memory. -/
theorem memory_mutations_read_modify_write_witness :
    ((MemoryManager.load_memories (FileState.stored MemoryManager.emptyMemories)).getKey "facts"
        = some (Json.arr [])) ∧
    MemoryManager.add_fact "T" (Json.str "likes pizza")
        (FileState.stored MemoryManager.emptyMemories) =
      some (MemoryManager.save_memories
        ((MemoryManager.load_memories (FileState.stored MemoryManager.emptyMemories)).setKey "facts"
          (Json.arr ([] ++ [MemoryManager.factRecord (Json.str "likes pizza") "T"])))
        (FileState.stored MemoryManager.emptyMemories)) :=
  ⟨rfl,
    (memory_mutations_read_modify_write "T" "likes pizza" "color" "red"
      (FileState.stored MemoryManager.emptyMemories) [] [] rfl rfl).1⟩

/-- Loading right after saving recovers the saved value. -/
theorem load_memories_save_memories (m : Json) (fs : FileState) :
    MemoryManager.load_memories (MemoryManager.save_memories m fs) = m :=
  rfl

/-- Whatever `add_fact` does to the file (including raising), the loaded
value's keys other than `'facts'` are unchanged. -/
theorem add_fact_frame (now : String) (fact : Json) (fs : FileState) (k' : String)
    (hk : k' ≠ "facts") :
    (MemoryManager.load_memories
        ((MemoryManager.add_fact now fact fs).getD fs)).getKey k'
      = (MemoryManager.load_memories fs).getKey k' := by
  unfold MemoryManager.add_fact
  cases hm : (MemoryManager.load_memories fs).getKey "facts" with
  | none => simp [hm]
  | some j =>
    cases j with
    | arr facts =>
      simp only [hm, Option.getD_some, load_memories_save_memories]
      exact getKey_setKey_ne _ k' (getKey_some_obj hm) hk
    | null => simp [hm]
    | bool b => simp [hm]
    | num n => simp [hm]
    | str s => simp [hm]
    | obj entries => simp [hm]

/-- Whatever `add_preference` does to the file (including raising), the
loaded value's keys other than `'preferences'` are unchanged. -/
theorem add_preference_frame (key : String) (value : Json) (fs : FileState)
    (k' : String) (hk : k' ≠ "preferences") :
    (MemoryManager.load_memories
        ((MemoryManager.add_preference key value fs).getD fs)).getKey k'
      = (MemoryManager.load_memories fs).getKey k' := by
  unfold MemoryManager.add_preference
  cases hm : (MemoryManager.load_memories fs).getKey "preferences" with
  | none => simp [hm]
  | some j =>
    cases j with
    | obj prefs =>
      simp only [hm, Option.getD_some, load_memories_save_memories]
      exact getKey_setKey_ne _ k' (getKey_some_obj hm) hk
    | null => simp [hm]
    | bool b => simp [hm]
    | num n => simp [hm]
    | str s => simp [hm]
    | arr elems => simp [hm]

/-- Whatever `add_preference` does to the file, preference entries at
every other key are unchanged. -/
theorem add_preference_entry_frame (key : String) (value : Json) (fs : FileState)
    (k' : String) (hk : k' ≠ key) :
    ((MemoryManager.load_memories
          ((MemoryManager.add_preference key value fs).getD fs)).getKey
        "preferences").bind (fun p => p.getKey k')
      = ((MemoryManager.load_memories fs).getKey "preferences").bind
          (fun p => p.getKey k') := by
  unfold MemoryManager.add_preference
  cases hm : (MemoryManager.load_memories fs).getKey "preferences" with
  | none => simp [hm]
  | some j =>
    cases j with
    | obj prefs =>
      simp only [hm, Option.getD_some, load_memories_save_memories]
      rw [getKey_setKey_self _ (getKey_some_obj hm)]
      simp only [Option.bind_some, Json.getKey]
      exact lookupKey_setEntry_ne prefs key k' value hk
    | null => simp [hm]
    | bool b => simp [hm]
    | num n => simp [hm]
    | str s => simp [hm]
    | arr elems => simp [hm]

/-- C4: mutations are framed: `add_fact` leaves the stored
`'preferences'` and `'conversations'` components unchanged, and
`add_preference` leaves `'facts'` and `'conversations'` unchanged and
changes no preference entry other than the given key (a raising execution
leaves the file untouched, so the frame holds for every prior state). -/
theorem memory_mutations_frame (now fact key value : String) (fs : FileState) :
    ((MemoryManager.load_memories
        ((MemoryManager.add_fact now (Json.str fact) fs).getD fs)).getKey "preferences"
      = (MemoryManager.load_memories fs).getKey "preferences") ∧
    ((MemoryManager.load_memories
        ((MemoryManager.add_fact now (Json.str fact) fs).getD fs)).getKey "conversations"
      = (MemoryManager.load_memories fs).getKey "conversations") ∧
    ((MemoryManager.load_memories
        ((MemoryManager.add_preference key (Json.str value) fs).getD fs)).getKey "facts"
      = (MemoryManager.load_memories fs).getKey "facts") ∧
    ((MemoryManager.load_memories
        ((MemoryManager.add_preference key (Json.str value) fs).getD fs)).getKey "conversations"
      = (MemoryManager.load_memories fs).getKey "conversations") ∧
    (∀ k', k' ≠ key →
      ((MemoryManager.load_memories
            ((MemoryManager.add_preference key (Json.str value) fs).getD fs)).getKey
          "preferences").bind (fun p => p.getKey k')
        = ((MemoryManager.load_memories fs).getKey "preferences").bind
            (fun p => p.getKey k')) := by
  refine ⟨?_, ?_, ?_, ?_, ?_⟩
  · exact add_fact_frame now (Json.str fact) fs "preferences" (by decide)
  · exact add_fact_frame now (Json.str fact) fs "conversations" (by decide)
  · exact add_preference_frame key (Json.str value) fs "facts" (by decide)
  · exact add_preference_frame key (Json.str value) fs "conversations" (by decide)
  · intro k' hk
    exact add_preference_entry_frame key (Json.str value) fs k' hk

/-- Witness for C4 on a missing file with a distinct other key. -/
theorem memory_mutations_frame_witness :
    ("food" : String) ≠ "color" ∧
    ((MemoryManager.load_memories
          ((MemoryManager.add_preference "color" (Json.str "red")
              FileState.missing).getD FileState.missing)).getKey
        "preferences").bind (fun p => p.getKey "food")
      = ((MemoryManager.load_memories FileState.missing).getKey "preferences").bind
          (fun p => p.getKey "food") :=
  ⟨by decide,
    (memory_mutations_frame "T" "f" "color" "red" FileState.missing).2.2.2.2 "food"
      (by decide)⟩

/-- Counterexample to C7 as stated: `main()`'s two `process_prompt` calls
share the single mutable `Llama` instance, so with a state-sensitive
completion (here: the instance answers `"first"` on its first call and
`"second"` afterwards) the gathered outcome differs from sequential
processing when Q2's call happens to run first — refuting both "share no
mutable state with each other" and "the outcome equals processing the two
prompts sequentially". -/
theorem batch_gather_order_counterexample :
    (Batch.mainResults
        (fun (s : Bool) (_ : String) => (if s then "second" else "first", true))
        false false).1
      ≠ (Batch.sequentialResults
          (fun (s : Bool) (_ : String) => (if s then "second" else "first", true))
          false).1 := by
  decide

/-- C7 (amended): `main()` issues precisely two `process_prompt` calls,
but they share the one mutable `Llama` instance.  `asyncio.gather` still
collects and prints the results in call order — the entry labelled `Q1`
carrying `q1` comes before the entry labelled `Q2` carrying `q2` —
whichever request ran first; and whenever the completion's answer depends
only on its prompt (no interference through the shared state), the
outcome equals processing the two prompts sequentially. -/
theorem batch_gather_order {σ : Type} (llama : σ → String → String × σ)
    (st : σ) (q1First : Bool) :
    (Batch.mainResults llama st q1First).1.map (fun r => (r.1, r.2.1))
      = [("Q1", Batch.q1), ("Q2", Batch.q2)] ∧
    ∀ f : String → String, (∀ s p, (llama s p).1 = f p) →
      (Batch.mainResults llama st q1First).1 = (Batch.sequentialResults llama st).1 ∧
      (Batch.mainResults llama st q1First).1
        = [("Q1", Batch.q1, f Batch.q1), ("Q2", Batch.q2, f Batch.q2)] ∧
      Batch.printedOutput (Batch.mainResults llama st q1First).1
        = "User: " ++ Batch.q1 ++ "\n" ++ "AI: " ++ f Batch.q1 ++ "\n\n" ++
            "User: " ++ Batch.q2 ++ "\n" ++ "AI: " ++ f Batch.q2 ++ "\n\n" := by
  constructor
  · cases q1First <;> rfl
  · intro f hf
    refine ⟨?_, ?_, ?_⟩ <;> cases q1First <;>
      simp [Batch.mainResults, Batch.sequentialResults, Batch.process_prompt,
        Batch.gatherTwo, Batch.sortByIndex, Batch.insertByIndex,
        Batch.printedOutput, hf]

/-- Witness for C7 (amended) with a prompt-pure completion. -/
theorem batch_gather_order_witness :
    (∀ (s : Nat) (p : String),
      ((fun (s : Nat) (_ : String) => ("ok", s)) s p).1 = (fun _ : String => "ok") p) ∧
    (Batch.mainResults (fun (s : Nat) (_ : String) => ("ok", s)) 0 false).1
      = (Batch.sequentialResults (fun (s : Nat) (_ : String) => ("ok", s)) 0).1 :=
  ⟨fun _ _ => rfl,
    ((batch_gather_order (fun (s : Nat) (_ : String) => ("ok", s)) 0 false).2
      (fun _ => "ok") (fun _ _ => rfl)).1⟩

/-- C9: `PromptDebugger.debug` writes exactly
`format_output(capture_all(params))` to a file inside the configured
output directory, named from the configured stem with a timestamp before
the extension when `include_timestamp` is set; `append_mode` appends to
any existing contents and otherwise the file is overwritten; the written
path is returned (inside the result dictionary) and no other file
changes. -/
theorem debug_writes_formatted_output (o : Debugger.DebuggerOptions)
    (params : Debugger.DebugParams) (now : String) (fs : String → Option String) :
    (Debugger.debug o now params none fs).1.filepath
        = o.outputDir ++ "/" ++
          (if o.includeTimestamp then
            Debugger.pathStem o.filename ++ "_" ++ Debugger.sanitizeStamp now ++
              Debugger.pathSuffix o.filename
          else o.filename) ∧
    (Debugger.debug o now params none fs).2
        ((Debugger.debug o now params none fs).1.filepath)
      = some (if o.appendMode then
            (fs ((Debugger.debug o now params none fs).1.filepath)).getD "" ++
              Debugger.format_output (Debugger.capture_all o now params)
          else Debugger.format_output (Debugger.capture_all o now params)) ∧
    (∀ p, p ≠ (Debugger.debug o now params none fs).1.filepath →
      (Debugger.debug o now params none fs).2 p = fs p) := by
  refine ⟨?_, ?_, ?_⟩
  · simp [Debugger.debug, Debugger.save_to_file, Debugger.pyOrStr]
  · simp [Debugger.debug, Debugger.save_to_file, Debugger.pyOrStr]
  · intro p hp
    simp only [Debugger.debug, Debugger.save_to_file, Debugger.pyOrStr] at hp ⊢
    rw [if_neg hp]

/-- Witness for C9: an untouched path keeps its previous contents. -/
theorem debug_writes_formatted_output_witness :
    ("other" : String) ≠ (Debugger.debug {} "T" {} none (fun _ => none)).1.filepath ∧
    (Debugger.debug {} "T" {} none (fun _ => none)).2 "other" = none :=
  ⟨by decide,
    (debug_writes_formatted_output {} {} "T" (fun _ => none)).2.2 "other" (by decide)⟩

/-- The tool-call loop of `chat` only appends messages. -/
theorem execToolCalls_append (now : String) :
    ∀ (tcs : List MemoryAgent.SaveToolCall)
      (msgs : List (ChatMsg MemoryAgent.SaveToolCall)) (mem : FileState)
      (out : List (ChatMsg MemoryAgent.SaveToolCall) × FileState),
      MemoryAgent.execToolCalls now tcs msgs mem = some out →
      ∃ extra, out.1 = msgs ++ extra := by
  intro tcs
  induction tcs with
  | nil =>
    intro msgs mem out h
    simp only [MemoryAgent.execToolCalls, Option.some.injEq] at h
    exact ⟨[], by simp [← h]⟩
  | cons tc rest ih =>
    intro msgs mem out h
    simp only [MemoryAgent.execToolCalls] at h
    cases ha : tc.arguments with
    | none => exact absurd h (by simp [ha])
    | some args =>
      simp only [ha] at h
      cases he : MemoryAgent.execute_function_call now tc.functionName args mem with
      | none => exact absurd h (by simp [he])
      | some r =>
        obtain ⟨resp, mem1⟩ := r
        simp only [he] at h
        obtain ⟨extra, hx⟩ := ih _ _ _ h
        exact ⟨{ role := "tool", toolCallId := some tc.id,
                 content := some resp } :: extra, by simp [hx]⟩

/-- C8: a returning `chat` call only appends to the conversation: the new
message list is the old one plus an appended block whose first entry is
the user message, whose last entry is an assistant message, and whose
last entry's content is exactly the value `chat` returns. -/
theorem chat_appends_conversation
    (model : List (ChatMsg MemoryAgent.SaveToolCall) → ChatMsg MemoryAgent.SaveToolCall)
    (now userMessage : String)
    (messages : List (ChatMsg MemoryAgent.SaveToolCall)) (mem : FileState)
    (answer : Option String) (messages' : List (ChatMsg MemoryAgent.SaveToolCall))
    (mem' : FileState)
    (h : MemoryAgent.chat model now userMessage messages mem
      = some (answer, messages', mem')) :
    ∃ appended, messages' = messages ++ appended ∧
      appended.head? = some { role := "user", content := some userMessage } ∧
      ∃ last, appended.getLast? = some last ∧
        last.role = "assistant" ∧ last.content = answer := by
  simp only [MemoryAgent.chat] at h
  cases hb : (model (messages ++ [{ role := "user", content := some userMessage }])).toolCalls.isEmpty with
  | true =>
    rw [hb] at h
    simp only [if_true, Option.some.injEq, Prod.mk.injEq] at h
    obtain ⟨ha, hmsgs, _⟩ := h
    refine ⟨[{ role := "user", content := some userMessage },
             { role := "assistant", content := answer }], ?_, rfl, ?_⟩
    · rw [← hmsgs, ← ha]
      simp
    · exact ⟨{ role := "assistant", content := answer }, rfl, rfl, rfl⟩
  | false =>
    rw [hb] at h
    simp only [Bool.false_eq_true, if_false] at h
    cases he : MemoryAgent.execToolCalls now
        (model (messages ++ [{ role := "user", content := some userMessage }])).toolCalls
        ((messages ++ [{ role := "user", content := some userMessage }]) ++
          [model (messages ++ [{ role := "user", content := some userMessage }])]) mem with
    | none => rw [he] at h; exact absurd h (by simp)
    | some out =>
      rw [he] at h
      simp only [Option.some.injEq, Prod.mk.injEq] at h
      obtain ⟨ha, hmsgs, _⟩ := h
      obtain ⟨extra, hx⟩ := execToolCalls_append now _ _ _ _ he
      refine ⟨{ role := "user", content := some userMessage } ::
          model (messages ++ [{ role := "user", content := some userMessage }]) ::
            (extra ++ [{ role := "assistant", content := answer }]), ?_, rfl, ?_⟩
      · rw [← hmsgs, ← ha, hx]
        simp
      · refine ⟨{ role := "assistant", content := answer }, ?_, rfl, rfl⟩
        exact List.getLast?_concat
          ({ role := "user", content := some userMessage } ::
            model (messages ++ [{ role := "user", content := some userMessage }]) :: extra)

/-- Witness for C8 with a model that answers without tool calls. -/
theorem chat_appends_conversation_witness :
    ∃ appended,
      ([{ role := "user", content := some "Hi" },
        { role := "assistant", content := some "Hello" }] :
          List (ChatMsg MemoryAgent.SaveToolCall)) = [] ++ appended ∧
      appended.head? = some { role := "user", content := some "Hi" } ∧
      ∃ last, appended.getLast? = some last ∧
        last.role = "assistant" ∧ last.content = some "Hello" :=
  chat_appends_conversation
    (fun _ => { role := "assistant", content := some "Hello" }) "T" "Hi" []
    FileState.missing (some "Hello")
    [{ role := "user", content := some "Hi" },
     { role := "assistant", content := some "Hello" }] FileState.missing rfl

/-- Iterating the message transformer one more step from a start whose
first iteration succeeds is iterating from the successor. -/
theorem msgsAfter_shift (model : List (ChatMsg ReactAgent.CalcToolCall) → String)
    (toolCheck : List (ChatMsg ReactAgent.CalcToolCall) → ChatMsg ReactAgent.CalcToolCall)
    (messages messages1 : List (ChatMsg ReactAgent.CalcToolCall))
    (h : ReactAgent.reactNext model toolCheck messages = some messages1) (n : Nat) :
    ReactAgent.msgsAfter model toolCheck messages (n + 1)
      = ReactAgent.msgsAfter model toolCheck messages1 n := by
  induction n with
  | zero =>
    show (ReactAgent.msgsAfter model toolCheck messages 0).bind
          (ReactAgent.reactNext model toolCheck)
        = ReactAgent.msgsAfter model toolCheck messages1 0
    simp [ReactAgent.msgsAfter, h]
  | succ n ih =>
    show (ReactAgent.msgsAfter model toolCheck messages (n + 1)).bind
          (ReactAgent.reactNext model toolCheck)
        = (ReactAgent.msgsAfter model toolCheck messages1 n).bind
            (ReactAgent.reactNext model toolCheck)
    rw [ih]

/-- Peeling a succeeding first iteration off the accumulated response. -/
theorem accumAfter_shift (model : List (ChatMsg ReactAgent.CalcToolCall) → String)
    (toolCheck : List (ChatMsg ReactAgent.CalcToolCall) → ChatMsg ReactAgent.CalcToolCall)
    (messages messages1 : List (ChatMsg ReactAgent.CalcToolCall))
    (h : ReactAgent.reactNext model toolCheck messages = some messages1) (n : Nat) :
    ReactAgent.accumAfter model toolCheck messages (n + 1)
      = (ReactAgent.accumAfter model toolCheck messages1 n).map
          (fun s => model messages ++ s) := by
  induction n with
  | zero =>
    simp [ReactAgent.accumAfter, ReactAgent.msgsAfter]
  | succ n ih =>
    show (match ReactAgent.msgsAfter model toolCheck messages (n + 1),
            ReactAgent.accumAfter model toolCheck messages (n + 1) with
          | some m, some s => some (s ++ model m)
          | _, _ => none)
        = (ReactAgent.accumAfter model toolCheck messages1 (n + 1)).map
            (fun s => model messages ++ s)
    rw [msgsAfter_shift model toolCheck messages messages1 h, ih]
    cases hm : ReactAgent.msgsAfter model toolCheck messages1 n with
    | none => simp [ReactAgent.accumAfter, hm]
    | some m =>
      cases hs : ReactAgent.accumAfter model toolCheck messages1 n with
      | none => simp [ReactAgent.accumAfter, hm, hs]
      | some s => simp [ReactAgent.accumAfter, hm, hs, String.append_assoc]

/-- Full characterization of the bounded ReAct loop: an execution either
aborts on a raising tool block, or runs some `n ≤ fuel` iterations and
returns the accumulated response prefixed by the incoming accumulator,
firing only on a chunk containing `"answer:"` and exhausting the fuel
otherwise. -/
theorem reactLoop_characterize (model : List (ChatMsg ReactAgent.CalcToolCall) → String)
    (toolCheck : List (ChatMsg ReactAgent.CalcToolCall) → ChatMsg ReactAgent.CalcToolCall) :
    ∀ (fuel : Nat) (messages : List (ChatMsg ReactAgent.CalcToolCall)) (acc : String),
      ReactAgent.reactLoop model toolCheck fuel messages acc = none ∨
      ∃ n fired s,
        ReactAgent.reactLoop model toolCheck fuel messages acc
          = some (acc ++ s, n, fired) ∧
        ReactAgent.accumAfter model toolCheck messages n = some s ∧
        n ≤ fuel ∧
        (fired = true ∨ n = fuel) ∧
        (fired = false ∨
          (∃ m, ReactAgent.msgsAfter model toolCheck messages (n - 1) = some m ∧
            ReactAgent.containsAnswer (model m) = true ∧ 1 ≤ n)) := by
  intro fuel
  induction fuel with
  | zero =>
    intro messages acc
    refine Or.inr ⟨0, false, "", ?_, rfl, Nat.le_refl 0, Or.inr rfl, Or.inl rfl⟩
    simp [ReactAgent.reactLoop]
  | succ fuel ih =>
    intro messages acc
    cases hc : ReactAgent.containsAnswer (model messages) with
    | true =>
      refine Or.inr ⟨1, true, model messages, ?_, ?_,
        Nat.succ_le_succ (Nat.zero_le fuel), Or.inl rfl,
        Or.inr ⟨messages, rfl, hc, Nat.le_refl 1⟩⟩
      · simp [ReactAgent.reactLoop, hc]
      · simp [ReactAgent.accumAfter, ReactAgent.msgsAfter]
    | false =>
      cases hn : ReactAgent.reactNext model toolCheck messages with
      | none =>
        refine Or.inl ?_
        simp [ReactAgent.reactLoop, hc, hn]
      | some messages1 =>
        cases ih messages1 (acc ++ model messages) with
        | inl hnone =>
          refine Or.inl ?_
          simp [ReactAgent.reactLoop, hc, hn, hnone]
        | inr hex =>
          obtain ⟨n, fired, s, hloop, hacc, hle, hor, hfi⟩ := hex
          refine Or.inr ⟨n + 1, fired, model messages ++ s, ?_, ?_,
            Nat.succ_le_succ hle, ?_, ?_⟩
          · simp only [ReactAgent.reactLoop, hc, Bool.false_eq_true, if_false, hn]
            rw [hloop]
            simp [String.append_assoc]
          · rw [accumAfter_shift model toolCheck messages messages1 hn, hacc]
            rfl
          · cases hor with
            | inl h => exact Or.inl h
            | inr h => exact Or.inr (by rw [h])
          · cases hfi with
            | inl h => exact Or.inl h
            | inr h =>
              obtain ⟨m, hm, hcm, hn1⟩ := h
              obtain ⟨k, rfl⟩ : ∃ k, n = k + 1 :=
                ⟨n - 1, (Nat.succ_pred_eq_of_pos hn1).symm⟩
              refine Or.inr ⟨m, ?_, hcm, Nat.le_add_left 1 (k + 1)⟩
              rw [Nat.add_sub_cancel,
                msgsAfter_shift model toolCheck messages messages1 hn]
              simpa using hm

/-- Counterexample to C1 as stated: `react_agent` does not always return
a string.  When the model's tool-check reply carries a tool call whose
argument string fails to decode (`json.loads` raises), the call aborts
with an uncaught exception (`none`) instead of returning. -/
theorem react_agent_bounded_counterexample :
    ReactAgent.react_agent (fun _ => "Thought: add the numbers")
      (fun _ => { role := "assistant",
                  toolCalls := [{ id := "call_0", functionName := "add",
                                  arguments := none }] })
      "What is 2 + 2?" 5 = none := by
  decide

/-- C1 (amended): the ReAct agent loop is bounded: every execution either
aborts on a raising tool-execution block, or runs `n ≤ max_iterations`
iterations and returns a string — the accumulated response once the
`"answer:"` check fires, otherwise (bound exhausted) the accumulated
response, falling back to the fixed error string when that accumulation
is empty. -/
theorem react_agent_bounded
    (model : List (ChatMsg ReactAgent.CalcToolCall) → String)
    (toolCheck : List (ChatMsg ReactAgent.CalcToolCall) → ChatMsg ReactAgent.CalcToolCall)
    (userPrompt : String) (maxIterations : Nat) :
    ReactAgent.react_agent model toolCheck userPrompt maxIterations = none ∨
    ∃ n fired s,
      ReactAgent.reactLoop model toolCheck maxIterations
          (ReactAgent.initMessages userPrompt) ""
        = some (s, n, fired) ∧
      ReactAgent.accumAfter model toolCheck (ReactAgent.initMessages userPrompt) n
        = some s ∧
      n ≤ maxIterations ∧
      (fired = true ∨ n = maxIterations) ∧
      (fired = false ∨
        (∃ m, ReactAgent.msgsAfter model toolCheck
            (ReactAgent.initMessages userPrompt) (n - 1) = some m ∧
          ReactAgent.containsAnswer (model m) = true ∧ 1 ≤ n)) ∧
      ReactAgent.react_agent model toolCheck userPrompt maxIterations
        = some (if fired = true then s
            else if s = "" then "Could not complete reasoning within iteration limit."
            else s) := by
  cases reactLoop_characterize model toolCheck maxIterations
      (ReactAgent.initMessages userPrompt) "" with
  | inl h =>
    refine Or.inl ?_
    unfold ReactAgent.react_agent
    rw [h]
  | inr hex =>
    obtain ⟨n, fired, s, hloop, hacc, hle, hor, hfi⟩ := hex
    rw [String.empty_append] at hloop
    refine Or.inr ⟨n, fired, s, hloop, hacc, hle, hor, hfi, ?_⟩
    unfold ReactAgent.react_agent
    rw [hloop]
    cases fired with
    | true => simp
    | false => simp

/-- Counterexample to C2 as stated: with the substring absent, the loop
does not always continue to the next iteration — a tool call whose
argument string fails to decode aborts the call instead (continuing for
one remaining iteration would have produced a `some` result). -/
theorem react_termination_substring_check_counterexample :
    ReactAgent.containsAnswer
        ((fun _ => "Thought: add the numbers")
          ([] : List (ChatMsg ReactAgent.CalcToolCall))) = false ∧
    ReactAgent.reactLoop (fun _ => "Thought: add the numbers")
        (fun _ => { role := "assistant",
                    toolCalls := [{ id := "call_0", functionName := "add",
                                    arguments := none }] })
        1 [] "" = none := by
  constructor
  · decide
  · decide

/-- C2 (amended): the loop's termination test is substring matching: an
iteration returns the accumulated full response exactly when the
lowercased model chunk contains `"answer:"`; when the substring is absent
the loop proceeds to the next iteration on the extended message list
provided the tool-execution block does not raise, and aborts the call
when it does. -/
theorem react_termination_substring_check
    (model : List (ChatMsg ReactAgent.CalcToolCall) → String)
    (toolCheck : List (ChatMsg ReactAgent.CalcToolCall) → ChatMsg ReactAgent.CalcToolCall)
    (fuel : Nat) (messages : List (ChatMsg ReactAgent.CalcToolCall))
    (fullResponse : String) :
    (ReactAgent.containsAnswer (model messages) = true →
      ReactAgent.reactLoop model toolCheck (fuel + 1) messages fullResponse
        = some (fullResponse ++ model messages, 1, true)) ∧
    (ReactAgent.containsAnswer (model messages) = false →
      ReactAgent.reactLoop model toolCheck (fuel + 1) messages fullResponse
        = (ReactAgent.reactNext model toolCheck messages).bind (fun messages1 =>
            (ReactAgent.reactLoop model toolCheck fuel messages1
                (fullResponse ++ model messages)).map
              (fun rest => (rest.1, rest.2.1 + 1, rest.2.2)))) := by
  constructor
  · intro hc
    simp [ReactAgent.reactLoop, hc]
  · intro hc
    simp only [ReactAgent.reactLoop, hc, Bool.false_eq_true, if_false]
    cases hn : ReactAgent.reactNext model toolCheck messages with
    | none => simp
    | some messages1 =>
      cases hl : ReactAgent.reactLoop model toolCheck fuel messages1
          (fullResponse ++ model messages) with
      | none => simp [hl]
      | some rest => simp [hl]

/-- Witness for C2: a chunk containing `"Answer:"` stops the loop in that
iteration with the accumulated response. -/
theorem react_termination_substring_check_witness :
    ReactAgent.containsAnswer
        ((fun _ => "Answer: 16") ([] : List (ChatMsg ReactAgent.CalcToolCall))) = true ∧
    ReactAgent.reactLoop (fun _ => "Answer: 16")
        (fun _ => { role := "assistant" }) (0 + 1) [] ""
      = some ("" ++ (fun _ => "Answer: 16") ([] : List (ChatMsg ReactAgent.CalcToolCall)),
          1, true) :=
  ⟨by decide,
    (react_termination_substring_check (fun _ => "Answer: 16")
      (fun _ => { role := "assistant" }) 0 [] "").1 (by decide)⟩
